import Mathlib

/-!
Verification development for the `workspace-launcher` repository.

The JavaScript sources are shallowly embedded as Lean functions:
pure string processing (`parseCommandString`, `stripInlineComments`,
`parseSelection`, the bookmark-tree functions) become pure Lean functions,
and the effectful launcher (`launchWorkspace` and its phases) becomes a
function producing an explicit trace of events (printed lines and process
spawns), parameterised by oracles for the outcome of external process
execution and for the filesystem contents.
-/

namespace WorkspaceLauncher

/-- One observable effect of the launcher: a printed line (one constructor
per member of the `print` helper from `utils.js`, plus plain `console.log`),
a process spawn (`$\`bash -c cmd\`` or an argv-style `$\`${argv}\``), or an
uncaught runtime exception. -/
inductive Event where
  | log (msg : String)
  | info (msg : String)
  | status (msg : String)
  | error (msg : String)
  | dryRun (msg : String)
  | progress (current total : Nat) (msg : String)
  | spawnBash (cmd : String)
  | spawnArgv (argv : List String)
  | crash (msg : String)
deriving DecidableEq, Repr

/-- A resolved bookmark, as produced by `extractUrlsFromFolder`. -/
structure Bookmark where
  name : String
  url : String
deriving DecidableEq, Repr

/-! ### Models of the JavaScript string primitives used by the sources -/

/-- JS `s.trim()`: strip whitespace from both ends. -/
def jsTrim (s : String) : String :=
  String.mk
    ((s.toList.dropWhile Char.isWhitespace).reverse.dropWhile
      Char.isWhitespace).reverse

/-- JS `s.startsWith(p)`. -/
def strStartsWith (s p : String) : Bool :=
  p.toList.isPrefixOf s.toList

/-- JS `s.endsWith(p)`. -/
def strEndsWith (s p : String) : Bool :=
  p.toList.reverse.isPrefixOf s.toList.reverse

/-- JS `s.split(sep)` for a one-character separator, on character lists:
splitting the empty string gives `[""]`, and separators at the ends give
empty fields. -/
def splitOnChar (sep : Char) : List Char → List (List Char)
  | [] => [[]]
  | c :: rest =>
    if c = sep then [] :: splitOnChar sep rest
    else
      match splitOnChar sep rest with
      | [] => [[c]]
      | h :: t => (c :: h) :: t

/-- JS `s.split(sep)` for a one-character separator. -/
def jsSplit (s : String) (sep : Char) : List String :=
  (splitOnChar sep s.toList).map String.mk

/-! ### Command-string tokenizer (`parseCommandString`, part_000 lines 36-82) -/

/-- The scan state of `parseCommandString`: accumulated tokens, the token
being built, and the three boolean states of the loop. -/
structure TokState where
  parts : List String
  current : String
  inSingleQuotes : Bool
  inDoubleQuotes : Bool
  escapeNext : Bool
deriving Repr

/-- One iteration of the `for (const char of command)` loop of
`parseCommandString`. -/
def tokStep (st : TokState) (c : Char) : TokState :=
  if st.escapeNext then
    { st with current := st.current.push c, escapeNext := false }
  else if c = '\\' then
    { st with escapeNext := true }
  else if c = '\'' ∧ ¬ st.inDoubleQuotes then
    { st with inSingleQuotes := ! st.inSingleQuotes }
  else if c = '"' ∧ ¬ st.inSingleQuotes then
    { st with inDoubleQuotes := ! st.inDoubleQuotes }
  else if c = ' ' ∧ ¬ st.inSingleQuotes ∧ ¬ st.inDoubleQuotes then
    if st.current ≠ "" then
      { st with parts := st.parts ++ [st.current], current := "" }
    else st
  else
    { st with current := st.current.push c }

/-- The function `parseCommandString` (part_000 lines 36-82): splits a command string into
argv-style tokens, handling single/double quotes and backslash escapes. -/
def parseCommandString (command : String) : List String :=
  if command = "" then []
  else
    let st := command.toList.foldl tokStep
      { parts := [], current := "", inSingleQuotes := false,
        inDoubleQuotes := false, escapeNext := false }
    if st.current ≠ "" then st.parts ++ [st.current] else st.parts

/-! ### Inline-comment stripper (`stripInlineComments`, part_001 lines 400-424) -/

/-- The character loop of `stripInlineComments`: walks the characters
carrying the previous character (`none` at the start, matching the `""`
sentinel of the source) and the two quote states, returning the characters
kept before the first unquoted `#` (or all of them). -/
def stripLoop : List Char → Option Char → Bool → Bool → List Char
  | [], _, _, _ => []
  | c :: rest, prev, inSingleQuotes, inDoubleQuotes =>
    if c = '"' ∧ ¬ inSingleQuotes ∧ prev ≠ some '\\' then
      c :: stripLoop rest (some c) inSingleQuotes (! inDoubleQuotes)
    else if c = '\'' ∧ ¬ inDoubleQuotes ∧ prev ≠ some '\\' then
      c :: stripLoop rest (some c) (! inSingleQuotes) inDoubleQuotes
    else if c = '#' ∧ ¬ inSingleQuotes ∧ ¬ inDoubleQuotes then
      []
    else
      c :: stripLoop rest (some c) inSingleQuotes inDoubleQuotes

/-- The function `stripInlineComments` (part_001 lines 400-424): truncates a command at
the first unquoted `#` and trims the result; an empty input returns `""`. -/
def stripInlineComments (cmd : String) : String :=
  if cmd = "" then ""
  else jsTrim (String.mk (stripLoop cmd.toList none false false))

/-- A node of the browser bookmarks JSON tree: `{type, name, children?, url}`.
`children` is optional, as in the JSON source format (a `url` node has no
`children` key); `url` nodes always carry a `url` string in the browser
format, so the field is kept plain (folders simply never read it). -/
inductive JNode where
  | mk (type name : String) (children : Option (List JNode)) (url : String)
deriving Repr

def JNode.type : JNode → String
  | .mk t _ _ _ => t

def JNode.name : JNode → String
  | .mk _ n _ _ => n

def JNode.children : JNode → Option (List JNode)
  | .mk _ _ c _ => c

def JNode.url : JNode → String
  | .mk _ _ _ u => u

/-- The `roots` object of the bookmarks document. -/
structure BookmarkRoots where
  bookmark_bar : JNode
  other : JNode
  synced : JNode
deriving Repr

/-- A parsed bookmarks document (`{ "roots": ... }`). -/
structure BookmarksDoc where
  roots : BookmarkRoots
deriving Repr

/-- The `rootMap` alias table of `findBookmarkFolder` (part_001 lines 54-61),
as a lookup from the first path segment to a root node. -/
def rootMapLookup (roots : BookmarkRoots) (seg : String) : Option JNode :=
  if seg = "Bookmarks bar" ∨ seg = "bookmark_bar" then some roots.bookmark_bar
  else if seg = "Other bookmarks" ∨ seg = "other" then some roots.other
  else if seg = "Mobile bookmarks" ∨ seg = "synced" then some roots.synced
  else none

/-- The navigation loop of `findBookmarkFolder` (part_001 lines 72-88).
`prev` is the previously consumed segment (`parts[i-1]`) and `consumed` the
segments consumed so far (`parts.slice(0, i)`), both used in error
messages. -/
def navigateBookmarkPath (current : JNode) (prev : String)
    (consumed : List String) : List String → Option JNode × List Event
  | [] => (some current, [])
  | seg :: rest =>
    match current.children with
    | none => (none, [.error ("\"" ++ prev ++ "\" is not a folder")])
    | some cs =>
      match cs.find? (fun c => c.name == seg && c.type == "folder") with
      | none =>
        (none,
          [.error ("Folder not found: " ++ seg ++ " in " ++
             String.intercalate "/" consumed),
           .info "Tip: Check the folder name spelling and path"])
      | some child => navigateBookmarkPath child seg (consumed ++ [seg]) rest

/-- The function `findBookmarkFolder` (part_001 lines 49-91): splits the folder path on
`/`, trims each segment, maps the first segment through the alias table and
navigates through the remaining segments, reporting errors as print
events. -/
def findBookmarkFolder (bookmarks : BookmarksDoc) (folderPath : String) :
    Option JNode × List Event :=
  let parts := (jsSplit folderPath '/').map jsTrim
  let p0 := parts.head?.getD ""
  match rootMapLookup bookmarks.roots p0 with
  | none =>
    (none,
      [.error ("Root folder not found: " ++ p0),
       .info "Available roots: Bookmarks bar, Other bookmarks, Mobile bookmarks"])
  | some root => navigateBookmarkPath root p0 [p0] parts.tail

mutual

/-- The function `extractUrlsFromFolder` (part_001 lines 99-113): depth-first traversal of
the folder's children in document order, appending `url` nodes and recursing
into `folder` nodes when `recursive` is set. -/
def extractUrlsFromFolder (folder : JNode) (recursive : Bool) : List Bookmark :=
  match folder with
  | .mk _ _ none _ => []
  | .mk _ _ (some cs) _ => extractUrlsList cs recursive

/-- The `for (const item of folder.children)` loop of
`extractUrlsFromFolder`. -/
def extractUrlsList (items : List JNode) (recursive : Bool) : List Bookmark :=
  match items with
  | [] => []
  | item :: rest =>
    (if item.type = "url" then [⟨item.name, item.url⟩]
     else if item.type = "folder" ∧ recursive then
       extractUrlsFromFolder item recursive
     else []) ++ extractUrlsList rest recursive

end

/-! ### Filesystem oracle and composition (part_001 lines 13-40, 121-129) -/

/-- The possible outcomes of reading and JSON-decoding one bookmarks file:
the file is missing (`existsSync` false), unparsable (`JSON.parse` throws
with a message), or parses to a document. -/
inductive LoadResult where
  | missing
  | malformed (msg : String)
  | parsed (doc : BookmarksDoc)

/-- Filesystem oracle: what loading a given path yields. -/
def FileSystem := String → LoadResult

/-- The function `loadBookmarksFile` (part_001 lines 22-40): returns the parsed document
or `none`, together with the report lines printed on failure. -/
def loadBookmarksFile (fs : FileSystem) (bookmarksPath : String) :
    Option BookmarksDoc × List Event :=
  match fs bookmarksPath with
  | .missing =>
    (none,
      [.error ("Bookmarks file not found: " ++ bookmarksPath),
       .info "Tip: Check your bookmarks_file path in config.toml",
       .info "Common paths:",
       .info "  Chrome:   ~/.config/google-chrome/Default/Bookmarks",
       .info "  Chromium: ~/.config/chromium/Default/Bookmarks",
       .info "  Brave:    ~/.config/BraveSoftware/Brave-Browser/Default/Bookmarks"])
  | .malformed msg =>
    (none,
      [.error ("Failed to parse bookmarks file: " ++ msg),
       .info "Tip: Ensure the bookmarks file is valid JSON"])
  | .parsed doc => (some doc, [])

/-- The function `getBookmarksFromFolder` (part_001 lines 121-129): composes loading,
folder resolution and URL extraction; any failed step yields the empty
list, with the report lines of the failing step. -/
def getBookmarksFromFolder (fs : FileSystem)
    (bookmarksFilePath folderPath : String) : List Bookmark × List Event :=
  let load := loadBookmarksFile fs bookmarksFilePath
  match load.1 with
  | none => ([], load.2)
  | some doc =>
    let fb := findBookmarkFolder doc folderPath
    match fb.1 with
    | none => ([], load.2 ++ fb.2)
    | some folder => (extractUrlsFromFolder folder true, load.2 ++ fb.2)

/-! ### Configuration and workspace records (part_000, part_001) -/

/-- The `[settings]` table of the configuration; both fields optional, with
`none` for an absent key (JS `undefined`). -/
structure Settings where
  bookmarks_file : Option String
  bookmarks_open_in : Option String

/-- The configuration object; `settings` itself may be absent
(the source uses `config.settings?.` optional chaining). -/
structure Config where
  settings : Option Settings

/-- A workspace record as read by the launcher. -/
structure Workspace where
  name : String
  commands : Option (List String)
  bookmarks_folder : Option String

/-- JS truthiness of an optional string: absent and `""` are falsy. -/
def truthyStr : Option String → Bool
  | none => false
  | some s => s ≠ ""

/-- The function `getBookmarksFilePath` (part_001 lines 13-15):
`config.settings?.bookmarks_file || null`. -/
def getBookmarksFilePath (config : Config) : Option String :=
  match config.settings with
  | none => none
  | some st => if truthyStr st.bookmarks_file then st.bookmarks_file else none

/-- The browser command of the bookmarks phase (part_000 line 148):
`config.settings?.bookmarks_open_in || "xdg-open"`. -/
def browserCommandOf (config : Config) : String :=
  match config.settings with
  | none => "xdg-open"
  | some st =>
    match st.bookmarks_open_in with
    | none => "xdg-open"
    | some s => if s ≠ "" then s else "xdg-open"

/-! ### The launcher (part_000 lines 89-223)

External process execution is abstracted by oracles. For commands, the
source builds `$\`bash -c ${cleanCmd}\`` and calls `.nothrow()` before
`await shell` (lines 111-117): with `nothrow`, a run that completes with
any exit code — zero or not — makes the await RESOLVE, and the exit code
is never inspected, so the `Launched` status line is printed regardless;
only a run whose await THROWS (e.g. a spawn error) reaches the catch block
and its `Failed to launch` report. `ExecOutcome` models exactly these two
observable outcomes, with `throws msg` carrying `error.message`. For the
bookmark opens, `execArgv` gives the outcome of an argv-style
`await $\`${argv}\``, with `.error msg` the throwing case. -/

/-- The outcome of `await` on a `.nothrow()` shell invocation: the promise
resolves with an exit code (never inspected by the source), or throws. -/
inductive ExecOutcome where
  | exits (code : Nat)
  | throws (msg : String)

/-- Outcome oracle for `bash -c` command execution. -/
def ExecOracle := String → ExecOutcome

/-- Outcome oracle for argv-style process execution. -/
def ArgvOracle := List String → Except String Unit

/-- The 50-character display-name truncation of the command loop
(part_000 lines 107, 118). -/
def displayName50 (s : String) : String :=
  if s.length > 50 then s.take 50 ++ "..." else s

/-- The 40-character display-name truncation of the bookmarks loops
(part_000 lines 183-185, 204-206). -/
def displayName40 (s : String) : String :=
  if s.length > 40 then s.take 40 ++ "..." else s

/-- Whether `needle` occurs as a contiguous sublist of `hay`. -/
def listContainsSub (hay needle : List Char) : Bool :=
  if needle.isPrefixOf hay then true
  else
    match hay with
    | [] => false
    | _ :: t => listContainsSub t needle

/-- JS `hay.includes(needle)` on strings. -/
def strIncludes (hay needle : String) : Bool :=
  listContainsSub hay.toList needle.toList

/-- What the command loop does with one raw command line (part_000 lines
96-101): skipped lines yield `none`, otherwise the comment-stripped command
to run. -/
def commandPlan (cmd : String) : Option String :=
  if cmd = "" ∨ strStartsWith (jsTrim cmd) "#" then none
  else
    let clean := stripInlineComments cmd
    if clean = "" then none else some clean

/-- The comment-stripped commands the loop actually processes, in order. -/
def activeCommands (cmds : List String) : List String :=
  cmds.filterMap commandPlan

/-- The live (non-dry-run) body of the command loop for one command
(part_000 lines 110-129): spawn `bash -c`, then await. Because of
`.nothrow()`, a resolving run prints the `Launched` status line whatever
its exit code (the code is never read); only a throwing await reaches the
catch block's failure report. -/
def launchCommandStep (isVerbose : Bool) (exec : ExecOracle)
    (cleanCmd : String) : List Event :=
  Event.spawnBash cleanCmd ::
    match exec cleanCmd with
    | .exits _ => [.status ("Launched: " ++ displayName50 cleanCmd)]
    | .throws e =>
      [.error ("Failed to launch: " ++ cleanCmd)]
      ++ (if strIncludes e "command not found" then
            [.info "Tip: Ensure the application is installed"]
          else [])
      ++ (if isVerbose then [.log e] else [])

/-- The command loop of `launchWorkspace` (part_000 lines 94-130). -/
def launchCommandsPhase (isDryRun isVerbose : Bool) (exec : ExecOracle) :
    List String → List Event
  | [] => []
  | cmd :: rest =>
    (match commandPlan cmd with
     | none => []
     | some clean =>
       if isDryRun then
         [.dryRun ("Would execute: " ++ clean),
          .status ("Planned: " ++ displayName50 clean)]
       else launchCommandStep isVerbose exec clean)
    ++ launchCommandsPhase isDryRun isVerbose exec rest

/-- The live xdg-open loop (part_000 lines 171-187): one spawn per bookmark,
each followed by its progress line; a throw aborts the loop into the shared
catch block (lines 210-216). -/
def xdgOpenLoop (isVerbose : Bool) (execArgv : ArgvOracle)
    (commandParts : List String) (total : Nat) :
    List Bookmark → Nat → List Event
  | [], _ => []
  | b :: rest, i =>
    .spawnArgv (commandParts ++ [b.url]) ::
      match execArgv (commandParts ++ [b.url]) with
      | .ok _ =>
        .progress (i + 1) total ("Opened: " ++ displayName40 b.name) ::
          xdgOpenLoop isVerbose execArgv commandParts total rest (i + 1)
      | .error e =>
        [.error "Failed to open bookmarks",
         .info "Tip: Check your browser command in config.toml"]
        ++ (if isVerbose then [.log e] else [])

/-- The bookmark-opening section of `launchWorkspace` (part_000 lines
148-217), from the browser-command choice onwards. An empty token list
makes `commandParts[0].endsWith` throw a `TypeError` in the source, which
is modelled as a `crash` event ending the trace. -/
def launchBookmarksOpen (isDryRun isVerbose : Bool) (execArgv : ArgvOracle)
    (browserCommand : String) (bookmarks : List Bookmark) : List Event :=
  let commandParts := parseCommandString browserCommand
  match commandParts with
  | [] => [.crash "TypeError: commandParts[0] is undefined"]
  | p0 :: ps =>
    let isXdgOpen := strEndsWith p0 "xdg-open"
    if isDryRun then
      if isXdgOpen then
        bookmarks.enum.map fun p =>
          .progress (p.1 + 1) bookmarks.length
            ("[DRY RUN] Would open: " ++ p.2.name)
      else
        .dryRun ("Would open " ++ toString bookmarks.length ++
            " bookmarks as tabs") ::
          (bookmarks.enum.map fun p =>
            .progress (p.1 + 1) bookmarks.length ("[DRY RUN] " ++ p.2.name))
    else
      if isXdgOpen then
        xdgOpenLoop isVerbose execArgv (p0 :: ps) bookmarks.length bookmarks 0
      else
        let urls := bookmarks.map (·.url)
        .spawnArgv (p0 :: ps ++ urls) ::
          match execArgv (p0 :: ps ++ urls) with
          | .ok _ =>
            bookmarks.enum.map fun p =>
              .progress (p.1 + 1) bookmarks.length
                ("Opened: " ++ displayName40 p.2.name)
          | .error e =>
            [.error "Failed to open bookmarks",
             .info "Tip: Check your browser command in config.toml"]
            ++ (if isVerbose then [.log e] else [])

/-- The function `launchWorkspace` (part_000 lines 89-223) as a trace of events: the
header lines, the command loop, then the bookmarks section when
`workspace.bookmarks_folder` is truthy. -/
def launchWorkspace (isDryRun isVerbose : Bool) (exec : ExecOracle)
    (execArgv : ArgvOracle) (fs : FileSystem) (workspace : Workspace)
    (config : Config) : List Event :=
  [.log "", .info ("Starting: " ++ workspace.name), .log ""]
  ++ launchCommandsPhase isDryRun isVerbose exec (workspace.commands.getD [])
  ++ (if truthyStr workspace.bookmarks_folder then
        let folder := workspace.bookmarks_folder.getD ""
        match getBookmarksFilePath config with
        | none =>
          [.error "Bookmarks file path not configured in settings",
           .info "Add 'bookmarks_file' in [settings] section of config"]
        | some bookmarksPath =>
          let r := getBookmarksFromFolder fs bookmarksPath folder
          r.2 ++
            (if r.1.length > 0 then
              .info ("Opening " ++ toString r.1.length ++
                  " bookmark(s) from: " ++ folder) ::
                launchBookmarksOpen isDryRun isVerbose execArgv
                  (browserCommandOf config) r.1
            else
              -- the source's `else if (workspace.bookmarks_folder)` re-tests
              -- the outer condition, which is true here
              [.error ("No bookmarks found in folder: " ++ folder),
               .info "Tip: Check the folder path in your config"])
      else [])

/-! ### Selection parsing (`parseSelection`, part_001 lines 368-393) -/

/-- Model of JavaScript `parseInt(s)` in its base-10 reading: skip leading
whitespace, optional sign, then the longest digit run; `none` models `NaN`
(no digits). The `0x` hexadecimal autodetection of `parseInt` is not
modelled; no selection string handled by the tool uses it. -/
def jsParseInt (s : String) : Option Int :=
  let t := s.toList.dropWhile (·.isWhitespace)
  let signed : Bool × List Char :=
    match t with
    | '-' :: r => (true, r)
    | '+' :: r => (false, r)
    | _ => (false, t)
  let digits := signed.2.takeWhile (·.isDigit)
  if digits = [] then none
  else
    let n : Nat := digits.foldl (fun acc c => acc * 10 + (c.toNat - '0'.toNat)) 0
    some (if signed.1 then -(n : Int) else (n : Int))

/-- The operation `ids.add(x)` on the insertion-ordered JS `Set`, viewed as a
duplicate-free list. -/
def addUnique (l : List Int) (x : Int) : List Int :=
  if x ∈ l then l else l ++ [x]

/-- The integers of the inclusive range `for (let i = start; i <= end; i++)`. -/
def rangeInts (start stop : Int) : List Int :=
  (List.range (stop - start + 1).toNat).map fun k => start + (k : Int)

/-- What one comma-separated selection item adds to the accumulated set
(part_001 lines 374-390). -/
def selectionItemStep (acc : List Int) (part : String) : List Int :=
  if part.toList.contains '-' then
    match (jsSplit part '-').map (fun s => jsParseInt (jsTrim s)) with
    | a :: b :: _ =>
      match a, b with
      | some s, some e => if s ≤ e then (rangeInts s e).foldl addUnique acc else acc
      | _, _ => acc
    | _ => acc
  else
    match jsParseInt part with
    | some n => addUnique acc n
    | none => acc

/-- The function `parseSelection` (part_001 lines 368-393): comma-separated items and
inclusive ranges, collected into a set and sorted ascending. -/
def parseSelection (selection : String) : List Int :=
  if selection = "" then []
  else
    let parts := (jsSplit selection ',').map jsTrim
    List.insertionSort (· ≤ ·) (parts.foldl selectionItemStep [])

/-! ### Spec-side tokenizer (for comparison with `parseCommandString`)

`specScan`/`specTokenize` are written from the SPEC's words (§4.1): "single
left-to-right scan with three boolean states (`inSingleQuote`,
`inDoubleQuote`, `escapeNext`); an unescaped backslash escapes exactly the
next character; an unescaped quote character of the matching kind toggles
its quoting state ...; an unquoted space flushes the current token; a
trailing partial token is flushed at end of input." -/

def specScan : List Char → Bool → Bool → Bool → String → List String
  | [], _, _, _, current => if current ≠ "" then [current] else []
  | c :: rest, inSingleQuote, inDoubleQuote, escapeNext, current =>
    if escapeNext then
      specScan rest inSingleQuote inDoubleQuote false (current.push c)
    else if c = '\\' then
      specScan rest inSingleQuote inDoubleQuote true current
    else if c = '\'' ∧ ¬ inDoubleQuote then
      specScan rest (! inSingleQuote) inDoubleQuote false current
    else if c = '"' ∧ ¬ inSingleQuote then
      specScan rest inSingleQuote (! inDoubleQuote) false current
    else if c = ' ' ∧ ¬ inSingleQuote ∧ ¬ inDoubleQuote then
      (if current ≠ "" then [current] else [])
        ++ specScan rest inSingleQuote inDoubleQuote false ""
    else
      specScan rest inSingleQuote inDoubleQuote false (current.push c)

/-- The tokenizer as described by the spec's words. -/
def specTokenize (s : String) : List String :=
  specScan s.toList false false false ""

/-! ### Event classifiers used by the theorems -/

/-- Whether an event is an invocation of a process-spawning primitive. -/
def Event.isSpawn : Event → Bool
  | .spawnBash _ => true
  | .spawnArgv _ => true
  | _ => false

/-- The spawn events of a trace. -/
def spawnEvents (evs : List Event) : List Event :=
  evs.filter Event.isSpawn

/-- The `bash -c` commands spawned in a trace, in order. -/
def bashSpawns (evs : List Event) : List String :=
  evs.filterMap fun e =>
    match e with
    | .spawnBash c => some c
    | _ => none

/-- The number of failure (`print.error`) lines in a trace; in the command
phase these are exactly the `Failed to launch` lines. -/
def errorLineCount (evs : List Event) : Nat :=
  evs.countP fun e =>
    match e with
    | .error _ => true
    | _ => false

/-- The number of success (`print.status`) lines in a trace; in the live
command phase these are exactly the `Launched` lines. -/
def statusLineCount (evs : List Event) : Nat :=
  evs.countP fun e =>
    match e with
    | .status _ => true
    | _ => false

/-- Whether the oracle makes a command's awaited shell throw (the only
failure the `.nothrow()` loop can observe). -/
def cmdThrows (exec : ExecOracle) (c : String) : Bool :=
  match exec c with
  | .throws _ => true
  | .exits _ => false

/-! ## Helper lemmas -/

theorem navigateBookmarkPath_not_folder (current : JNode) (prev : String)
    (consumed : List String) (seg : String) (rest : List String)
    (hch : current.children = none) :
    navigateBookmarkPath current prev consumed (seg :: rest)
      = (none, [.error ("\"" ++ prev ++ "\" is not a folder")]) := by
  simp [navigateBookmarkPath, hch]

theorem navigateBookmarkPath_not_found (current : JNode) (prev : String)
    (consumed : List String) (seg : String) (rest : List String)
    (cs : List JNode) (hch : current.children = some cs)
    (hfind : cs.find? (fun c => c.name == seg && c.type == "folder") = none) :
    navigateBookmarkPath current prev consumed (seg :: rest)
      = (none,
         [.error ("Folder not found: " ++ seg ++ " in " ++
            String.intercalate "/" consumed),
          .info "Tip: Check the folder name spelling and path"]) := by
  simp [navigateBookmarkPath, hch, hfind]

theorem navigateBookmarkPath_step (current child : JNode) (prev : String)
    (consumed : List String) (seg : String) (rest : List String)
    (cs : List JNode) (hch : current.children = some cs)
    (hfind : cs.find? (fun c => c.name == seg && c.type == "folder")
      = some child) :
    navigateBookmarkPath current prev consumed (seg :: rest)
      = navigateBookmarkPath child seg (consumed ++ [seg]) rest := by
  simp [navigateBookmarkPath, hch, hfind]

theorem foldTok_eq_specScan (l : List Char) :
    ∀ (parts : List String) (current : String) (inS inD esc : Bool),
    (if (l.foldl tokStep ⟨parts, current, inS, inD, esc⟩).current ≠ "" then
       (l.foldl tokStep ⟨parts, current, inS, inD, esc⟩).parts
         ++ [(l.foldl tokStep ⟨parts, current, inS, inD, esc⟩).current]
     else (l.foldl tokStep ⟨parts, current, inS, inD, esc⟩).parts)
    = parts ++ specScan l inS inD esc current := by
  induction l with
  | nil =>
    intro parts current inS inD esc
    by_cases hc : current = "" <;> simp [specScan, hc]
  | cons c rest ih =>
    intro parts current inS inD esc
    simp only [List.foldl_cons]
    cases esc with
    | true =>
      have h1 : tokStep ⟨parts, current, inS, inD, true⟩ c
          = ⟨parts, current.push c, inS, inD, false⟩ := by simp [tokStep]
      have h2 : specScan (c :: rest) inS inD true current
          = specScan rest inS inD false (current.push c) := by simp [specScan]
      rw [h1, h2]; exact ih parts (current.push c) inS inD false
    | false =>
      by_cases hb : c = '\\'
      · have h1 : tokStep ⟨parts, current, inS, inD, false⟩ c
            = ⟨parts, current, inS, inD, true⟩ := by simp [tokStep, hb]
        have h2 : specScan (c :: rest) inS inD false current
            = specScan rest inS inD true current := by simp [specScan, hb]
        rw [h1, h2]; exact ih parts current inS inD true
      · by_cases hq : c = '\''
        · cases inD with
          | false =>
            have h1 : tokStep ⟨parts, current, inS, false, false⟩ c
                = ⟨parts, current, ! inS, false, false⟩ := by
              simp [tokStep, hb, hq]
            have h2 : specScan (c :: rest) inS false false current
                = specScan rest (! inS) false false current := by
              simp [specScan, hb, hq]
            rw [h1, h2]; exact ih parts current (! inS) false false
          | true =>
            have h1 : tokStep ⟨parts, current, inS, true, false⟩ c
                = ⟨parts, current.push c, inS, true, false⟩ := by
              simp [tokStep, hb, hq]
            have h2 : specScan (c :: rest) inS true false current
                = specScan rest inS true false (current.push c) := by
              simp [specScan, hb, hq]
            rw [h1, h2]; exact ih parts (current.push c) inS true false
        · by_cases hd : c = '"'
          · cases inS with
            | false =>
              have h1 : tokStep ⟨parts, current, false, inD, false⟩ c
                  = ⟨parts, current, false, ! inD, false⟩ := by
                simp [tokStep, hb, hq, hd]
              have h2 : specScan (c :: rest) false inD false current
                  = specScan rest false (! inD) false current := by
                simp [specScan, hb, hq, hd]
              rw [h1, h2]; exact ih parts current false (! inD) false
            | true =>
              have h1 : tokStep ⟨parts, current, true, inD, false⟩ c
                  = ⟨parts, current.push c, true, inD, false⟩ := by
                simp [tokStep, hb, hq, hd]
              have h2 : specScan (c :: rest) true inD false current
                  = specScan rest true inD false (current.push c) := by
                simp [specScan, hb, hq, hd]
              rw [h1, h2]; exact ih parts (current.push c) true inD false
          · by_cases hsp : c = ' '
            · cases inS with
              | true =>
                have h1 : tokStep ⟨parts, current, true, inD, false⟩ c
                    = ⟨parts, current.push c, true, inD, false⟩ := by
                  simp [tokStep, hb, hq, hd, hsp]
                have h2 : specScan (c :: rest) true inD false current
                    = specScan rest true inD false (current.push c) := by
                  simp [specScan, hb, hq, hd, hsp]
                rw [h1, h2]; exact ih parts (current.push c) true inD false
              | false =>
                cases inD with
                | true =>
                  have h1 : tokStep ⟨parts, current, false, true, false⟩ c
                      = ⟨parts, current.push c, false, true, false⟩ := by
                    simp [tokStep, hb, hq, hd, hsp]
                  have h2 : specScan (c :: rest) false true false current
                      = specScan rest false true false (current.push c) := by
                    simp [specScan, hb, hq, hd, hsp]
                  rw [h1, h2]; exact ih parts (current.push c) false true false
                | false =>
                  by_cases hc : current = ""
                  · subst hc
                    have h1 : tokStep ⟨parts, "", false, false, false⟩ c
                        = ⟨parts, "", false, false, false⟩ := by
                      simp [tokStep, hb, hq, hd, hsp]
                    have h2 : specScan (c :: rest) false false false ""
                        = specScan rest false false false "" := by
                      simp [specScan, hb, hq, hd, hsp]
                    rw [h1, h2]; exact ih parts "" false false false
                  · have h1 : tokStep ⟨parts, current, false, false, false⟩ c
                        = ⟨parts ++ [current], "", false, false, false⟩ := by
                      simp [tokStep, hb, hq, hd, hsp, hc]
                    have h2 : specScan (c :: rest) false false false current
                        = [current] ++ specScan rest false false false "" := by
                      simp [specScan, hb, hq, hd, hsp, hc]
                    rw [h1, h2, ← List.append_assoc]
                    exact ih (parts ++ [current]) "" false false false
            · have h1 : tokStep ⟨parts, current, inS, inD, false⟩ c
                  = ⟨parts, current.push c, inS, inD, false⟩ := by
                simp [tokStep, hb, hq, hd, hsp]
              have h2 : specScan (c :: rest) inS inD false current
                  = specScan rest inS inD false (current.push c) := by
                simp [specScan, hb, hq, hd, hsp]
              rw [h1, h2]; exact ih parts (current.push c) inS inD false

/-- The `parts` accumulated by `tokStep` stay nonempty tokens. -/
theorem tokStep_parts_nonempty (st : TokState) (c : Char)
    (h : ∀ t ∈ st.parts, t ≠ "") : ∀ t ∈ (tokStep st c).parts, t ≠ "" := by
  intro t ht
  unfold tokStep at ht
  split_ifs at ht <;> try exact h t ht
  next hcur =>
    rcases List.mem_append.mp ht with hl | hr
    · exact h t hl
    · rw [List.mem_singleton.mp hr]; exact hcur

theorem foldTok_parts_nonempty (l : List Char) :
    ∀ (st : TokState), (∀ t ∈ st.parts, t ≠ "") →
    ∀ t ∈ (l.foldl tokStep st).parts, t ≠ "" := by
  induction l with
  | nil => intro st h; simpa using h
  | cons c rest ih =>
    intro st h
    simpa using ih (tokStep st c) (tokStep_parts_nonempty st c h)

/-! ## Claim theorems -/

/-- C5: `parseCommandString` tokenizes any input string by the single
left-to-right scan with `inSingleQuotes`/`inDoubleQuotes`/`escapeNext`
states that the spec describes (formalised as the spec-worded `specTokenize`
agreeing with it on every input, with empty input giving the empty
sequence), and in particular `tokenize('open "a b" c') = ["open", "a b",
"c"]` and `tokenize('a\ b') = ["a b"]`. -/
theorem parseCommandString_matches_spec :
    (∀ s : String, parseCommandString s = specTokenize s) ∧
    parseCommandString "" = [] ∧
    parseCommandString "open \"a b\" c" = ["open", "a b", "c"] ∧
    parseCommandString "a\\ b" = ["a b"] := by
  refine ⟨?_, by decide, by decide, by decide⟩
  intro s
  by_cases hs : s = ""
  · subst hs; decide
  · unfold parseCommandString specTokenize
    rw [if_neg hs]
    simpa using foldTok_eq_specScan s.toList [] "" false false false

/-- C10: Every token produced by `parseCommandString` is a non-empty
string: a quoted empty string contributes no token (tokenizing `a "" b`
yields `["a", "b"]`), because a token is flushed only when the accumulated
text is non-empty, both at an unquoted space and at end of input. -/
theorem parseCommandString_tokens_nonempty :
    (∀ (s t : String), t ∈ parseCommandString s → t ≠ "") ∧
    parseCommandString "a \"\" b" = ["a", "b"] := by
  refine ⟨?_, by decide⟩
  intro s t ht
  unfold parseCommandString at ht
  split_ifs at ht with hs
  · simp at ht
  · set st := s.toList.foldl tokStep
      { parts := [], current := "", inSingleQuotes := false,
        inDoubleQuotes := false, escapeNext := false } with hst
    have hparts : ∀ u ∈ st.parts, u ≠ "" :=
      foldTok_parts_nonempty s.toList _ (by simp)
    by_cases hcur : st.current ≠ ""
    · rw [if_pos hcur] at ht
      rcases List.mem_append.mp ht with hl | hr
      · exact hparts t hl
      · rw [List.mem_singleton.mp hr]; exact hcur
    · rw [if_neg hcur] at ht
      exact hparts t ht

/-- C10 witness: The general theorem applied at the concrete input
`a "" b` and its first token. -/
theorem parseCommandString_tokens_nonempty_witness :
    "a" ∈ parseCommandString "a \"\" b" ∧ "a" ≠ "" :=
  ⟨by decide, parseCommandString_tokens_nonempty.1 "a \"\" b" "a" (by decide)⟩

theorem addUnique_nodup {l : List Int} {x : Int} (h : l.Nodup) :
    (addUnique l x).Nodup := by
  unfold addUnique
  split_ifs with hmem
  · exact h
  · simp [List.nodup_append, h, hmem]

theorem foldl_addUnique_nodup (xs : List Int) :
    ∀ {acc : List Int}, acc.Nodup → (xs.foldl addUnique acc).Nodup := by
  induction xs with
  | nil => intro acc h; exact h
  | cons x rest ih => intro acc h; exact ih (addUnique_nodup h)

theorem selectionItemStep_nodup {acc : List Int} (part : String)
    (h : acc.Nodup) : (selectionItemStep acc part).Nodup := by
  unfold selectionItemStep
  split_ifs with hd
  · rcases (jsSplit part '-').map (fun s => jsParseInt (jsTrim s)) with
      _ | ⟨a, _ | ⟨b, t⟩⟩
    · exact h
    · exact h
    · rcases a with _ | av <;> rcases b with _ | bv
      · exact h
      · exact h
      · exact h
      · simp only
        split_ifs with hle
        · exact foldl_addUnique_nodup _ h
        · exact h
  · rcases jsParseInt part with _ | n
    · exact h
    · exact addUnique_nodup h

theorem foldl_selectionItemStep_nodup (parts : List String) :
    ∀ {acc : List Int}, acc.Nodup → (parts.foldl selectionItemStep acc).Nodup := by
  induction parts with
  | nil => intro acc h; exact h
  | cons p rest ih => intro acc h; exact ih (selectionItemStep_nodup p h)

/-- C9: `parseSelection` always returns a strictly increasing (hence
duplicate-free) list of integers: duplicates and overlapping ranges appear
once, the result is ascending regardless of input order, and malformed
items or ranges with start greater than end are silently dropped, so
workspaces launch in ascending ID order rather than input order. -/
theorem parseSelection_sorted_dedup :
    (∀ s : String, List.Sorted (· < ·) (parseSelection s)) ∧
    parseSelection "3,1,2-4,3" = [1, 2, 3, 4] ∧
    parseSelection "7,1-3" = [1, 2, 3, 7] ∧
    parseSelection "5-2" = [] ∧
    parseSelection "foo,2,bar" = [2] ∧
    parseSelection "1,3-5,7" = [1, 3, 4, 5, 7] := by
  refine ⟨?_, by decide, by decide, by decide, by decide, by decide⟩
  intro s
  unfold parseSelection
  split_ifs with hs
  · exact List.sorted_nil
  · have hsorted :
        List.Sorted (· ≤ ·)
          (List.insertionSort (· ≤ ·)
            (((jsSplit s ',').map jsTrim).foldl selectionItemStep [])) :=
      List.sorted_insertionSort _ _
    have hnodup :
        (List.insertionSort (· ≤ ·)
          (((jsSplit s ',').map jsTrim).foldl selectionItemStep [])).Nodup :=
      (List.perm_insertionSort _ _).nodup_iff.mpr
        (foldl_selectionItemStep_nodup _ List.nodup_nil)
    exact (hsorted.and hnodup).imp fun h => lt_of_le_of_ne h.1 h.2

theorem extractUrlsList_eq_flatMap (cs : List JNode) (recursive : Bool) :
    extractUrlsList cs recursive = cs.flatMap fun item =>
      if item.type = "url" then [⟨item.name, item.url⟩]
      else if item.type = "folder" ∧ recursive then
        extractUrlsFromFolder item recursive
      else [] := by
  induction cs with
  | nil => simp [extractUrlsList]
  | cons item rest ih => simp only [extractUrlsList, List.flatMap_cons, ih]

theorem extractUrlsList_nonrecursive (cs : List JNode) :
    extractUrlsList cs false = cs.filterMap fun item =>
      if item.type = "url" then some ⟨item.name, item.url⟩ else none := by
  induction cs with
  | nil => rfl
  | cons item rest ih =>
    simp only [extractUrlsList, List.filterMap_cons]
    by_cases hu : item.type = "url"
    · simp [hu, ih]
    · simp [hu, ih]

/-- A folder whose only url lies inside a nested subfolder, for the
extraction-recursion example. -/
def nestedOnlyFolder : JNode :=
  .mk "folder" "Top"
    (some [.mk "folder" "Sub" (some [.mk "url" "X" none "http://x"]) ""]) ""

/-- C6: `extractUrlsFromFolder` traverses the folder's children
depth-first in document order, appending every `url` node as `{name, url}`
and recursing into `folder` nodes exactly when `recursive` is true; for a
folder whose only url lies inside a nested subfolder, `recursive = true`
returns that nested url and `recursive = false` returns the empty
sequence. -/
theorem extractUrlsFromFolder_spec :
    (∀ (t n : String) (cs : List JNode) (u : String) (recursive : Bool),
      extractUrlsFromFolder (.mk t n (some cs) u) recursive
        = cs.flatMap fun item =>
            if item.type = "url" then [⟨item.name, item.url⟩]
            else if item.type = "folder" ∧ recursive then
              extractUrlsFromFolder item recursive
            else []) ∧
    (∀ (t n u : String) (recursive : Bool),
      extractUrlsFromFolder (.mk t n none u) recursive = []) ∧
    (∀ (t n : String) (cs : List JNode) (u : String),
      extractUrlsFromFolder (.mk t n (some cs) u) false
        = cs.filterMap fun item =>
            if item.type = "url" then some ⟨item.name, item.url⟩ else none) ∧
    extractUrlsFromFolder nestedOnlyFolder true = [⟨"X", "http://x"⟩] ∧
    extractUrlsFromFolder nestedOnlyFolder false = [] := by
  refine ⟨?_, ?_, ?_, ?_, ?_⟩
  · intro t n cs u recursive
    simp only [extractUrlsFromFolder]
    exact extractUrlsList_eq_flatMap cs recursive
  · intro t n u recursive
    simp only [extractUrlsFromFolder]
  · intro t n cs u
    simp only [extractUrlsFromFolder]
    exact extractUrlsList_nonrecursive cs
  · simp [nestedOnlyFolder, extractUrlsFromFolder, extractUrlsList,
      JNode.type, JNode.name, JNode.url]
  · simp [nestedOnlyFolder, extractUrlsFromFolder, extractUrlsList,
      JNode.type, JNode.name, JNode.url]

/-! ### Concrete bookmark documents used in examples and witnesses -/

def urlNodeX : JNode := .mk "url" "X" none "http://x"

def readingFolder : JNode := .mk "folder" "Reading" (some [urlNodeX]) ""

def sampleOtherRoot : JNode :=
  .mk "folder" "Other bookmarks" (some [readingFolder, urlNodeX]) ""

def sampleDoc : BookmarksDoc :=
  ⟨⟨.mk "folder" "Bookmarks bar" (some []) "", sampleOtherRoot,
    .mk "folder" "Mobile bookmarks" (some []) ""⟩⟩

/-- C4 counterexample: A path segment that names a `url` node does NOT
fail with the distinct "not a folder" error the claim describes: the child
search of `findBookmarkFolder` requires `type === "folder"`, so the segment
falls through to the "Folder not found" report. Concretely, resolving
`Other bookmarks/X` where `X` is a `url` child produces the
`Folder not found` error line, and no "is not a folder" line. -/
theorem findBookmarkFolder_url_segment_counterexample :
    findBookmarkFolder sampleDoc "Other bookmarks/X"
      = (none,
         [.error "Folder not found: X in Other bookmarks",
          .info "Tip: Check the folder name spelling and path"]) ∧
    Event.error "\"X\" is not a folder"
      ∉ (findBookmarkFolder sampleDoc "Other bookmarks/X").2 := by
  exact ⟨rfl, by decide⟩

/-- C4 amended: `findBookmarkFolder` splits the folder path on `/`,
trims each segment, and maps the first segment through the fixed six-alias
table to one of the three roots, failing with "Root folder not found" on an
unknown first segment; every subsequent segment must match a child with
exactly that name and type `folder`; a missing match — including when the
segment names a `url` node, which the child search never matches — fails
with "Folder not found", naming the offending segment and the path
traversed so far; the distinct "is not a folder" error arises only when the
node resolved so far has no `children` list, and it names the previous
segment. -/
theorem findBookmarkFolder_resolution :
    (∀ d : BookmarksDoc,
      findBookmarkFolder d "Bookmarks bar" = (some d.roots.bookmark_bar, []) ∧
      findBookmarkFolder d "bookmark_bar" = (some d.roots.bookmark_bar, []) ∧
      findBookmarkFolder d "Other bookmarks" = (some d.roots.other, []) ∧
      findBookmarkFolder d "other" = (some d.roots.other, []) ∧
      findBookmarkFolder d "Mobile bookmarks" = (some d.roots.synced, []) ∧
      findBookmarkFolder d "synced" = (some d.roots.synced, [])) ∧
    (∀ (d : BookmarksDoc) (p : String),
      rootMapLookup d.roots (((jsSplit p '/').map jsTrim).head?.getD "") = none →
      findBookmarkFolder d p =
        (none,
         [.error ("Root folder not found: " ++
            (((jsSplit p '/').map jsTrim).head?.getD "")),
          .info "Available roots: Bookmarks bar, Other bookmarks, Mobile bookmarks"])) ∧
    (∀ (node : JNode) (prev : String) (consumed : List String) (seg : String)
        (rest : List String) (cs : List JNode),
      node.children = some cs →
      cs.find? (fun c => c.name == seg && c.type == "folder") = none →
      navigateBookmarkPath node prev consumed (seg :: rest) =
        (none,
         [.error ("Folder not found: " ++ seg ++ " in " ++
            String.intercalate "/" consumed),
          .info "Tip: Check the folder name spelling and path"])) ∧
    (∀ (cs : List JNode) (seg : String),
      (∀ c ∈ cs, c.name = seg → c.type ≠ "folder") →
      cs.find? (fun c => c.name == seg && c.type == "folder") = none) ∧
    (∀ (node : JNode) (prev : String) (consumed : List String) (seg : String)
        (rest : List String),
      node.children = none →
      navigateBookmarkPath node prev consumed (seg :: rest) =
        (none, [.error ("\"" ++ prev ++ "\" is not a folder")])) ∧
    (∀ (node child : JNode) (prev : String) (consumed : List String)
        (seg : String) (rest : List String) (cs : List JNode),
      node.children = some cs →
      cs.find? (fun c => c.name == seg && c.type == "folder") = some child →
      navigateBookmarkPath node prev consumed (seg :: rest) =
        navigateBookmarkPath child seg (consumed ++ [seg]) rest) := by
  refine ⟨fun d => ⟨rfl, rfl, rfl, rfl, rfl, rfl⟩, ?_, ?_, ?_, ?_, ?_⟩
  · intro d p h
    simp only [findBookmarkFolder]
    rw [h]
  · intro node prev consumed seg rest cs hch hfind
    obtain ⟨t, n, ch, u⟩ := node
    simp only [JNode.children] at hch
    subst hch
    simp only [navigateBookmarkPath, JNode.children]
    rw [hfind]
  · intro cs seg h
    rw [List.find?_eq_none]
    intro c hc hcontr
    rw [Bool.and_eq_true, beq_iff_eq, beq_iff_eq] at hcontr
    exact h c hc hcontr.1 hcontr.2
  · intro node prev consumed seg rest hch
    obtain ⟨t, n, ch, u⟩ := node
    simp only [JNode.children] at hch
    subst hch
    rfl
  · intro node child prev consumed seg rest cs hch hfind
    obtain ⟨t, n, ch, u⟩ := node
    simp only [JNode.children] at hch
    subst hch
    simp only [navigateBookmarkPath, JNode.children]
    rw [hfind]

/-- C4 witness: The amended theorem applied at the sample document: an
alias resolution, a missing-folder segment, a url-named segment and an
unknown root. -/
theorem findBookmarkFolder_resolution_witness :
    findBookmarkFolder sampleDoc "Other bookmarks"
      = (some sampleDoc.roots.other, []) ∧
    navigateBookmarkPath sampleOtherRoot "Other bookmarks" ["Other bookmarks"]
        ["Missing"]
      = (none,
         [.error ("Folder not found: " ++ "Missing" ++ " in " ++
            String.intercalate "/" ["Other bookmarks"]),
          .info "Tip: Check the folder name spelling and path"]) ∧
    ([urlNodeX].find? (fun c => c.name == "X" && c.type == "folder") = none) ∧
    findBookmarkFolder sampleDoc "Nope"
      = (none,
         [.error ("Root folder not found: " ++
            (((jsSplit "Nope" '/').map jsTrim).head?.getD "")),
          .info "Available roots: Bookmarks bar, Other bookmarks, Mobile bookmarks"]) :=
  ⟨(findBookmarkFolder_resolution.1 sampleDoc).2.2.1,
   findBookmarkFolder_resolution.2.2.1 sampleOtherRoot "Other bookmarks"
     ["Other bookmarks"] "Missing" [] [readingFolder, urlNodeX] rfl rfl,
   findBookmarkFolder_resolution.2.2.2.1 [urlNodeX] "X"
     (by intro c hc h1 h2
         rw [List.mem_singleton.mp hc] at h2
         exact absurd h2 (by decide)),
   findBookmarkFolder_resolution.2.1 sampleDoc "Nope" rfl⟩

/-! ### C8: total composition -/

theorem navigateBookmarkPath_none_has_error (rest : List String) :
    ∀ (node : JNode) (prev : String) (consumed : List String),
    (navigateBookmarkPath node prev consumed rest).1 = none →
    ∃ m, Event.error m ∈ (navigateBookmarkPath node prev consumed rest).2 := by
  induction rest with
  | nil => intro node prev consumed h; simp [navigateBookmarkPath] at h
  | cons seg rest ih =>
    intro node prev consumed h
    cases hch : node.children with
    | none =>
      rw [navigateBookmarkPath_not_folder node prev consumed seg rest hch]
      exact ⟨"\"" ++ prev ++ "\" is not a folder", by simp⟩
    | some cs =>
      cases hfind : cs.find? (fun c => c.name == seg && c.type == "folder") with
      | none =>
        rw [navigateBookmarkPath_not_found node prev consumed seg rest cs hch
          hfind]
        exact ⟨"Folder not found: " ++ seg ++ " in " ++
          String.intercalate "/" consumed, by simp⟩
      | some child =>
        rw [navigateBookmarkPath_step node child prev consumed seg rest cs hch
          hfind] at h ⊢
        exact ih child seg (consumed ++ [seg]) h

theorem findBookmarkFolder_root_none (d : BookmarksDoc) (p : String)
    (hr : rootMapLookup d.roots (((jsSplit p '/').map jsTrim).head?.getD "")
      = none) :
    findBookmarkFolder d p =
      (none,
       [.error ("Root folder not found: " ++
          (((jsSplit p '/').map jsTrim).head?.getD "")),
        .info "Available roots: Bookmarks bar, Other bookmarks, Mobile bookmarks"]) := by
  simp only [findBookmarkFolder]
  rw [hr]

theorem findBookmarkFolder_root_some (d : BookmarksDoc) (p : String)
    (root : JNode)
    (hr : rootMapLookup d.roots (((jsSplit p '/').map jsTrim).head?.getD "")
      = some root) :
    findBookmarkFolder d p =
      navigateBookmarkPath root (((jsSplit p '/').map jsTrim).head?.getD "")
        [((jsSplit p '/').map jsTrim).head?.getD ""]
        ((jsSplit p '/').map jsTrim).tail := by
  simp only [findBookmarkFolder]
  rw [hr]

theorem findBookmarkFolder_none_has_error (d : BookmarksDoc) (fp : String)
    (h : (findBookmarkFolder d fp).1 = none) :
    ∃ m, Event.error m ∈ (findBookmarkFolder d fp).2 := by
  cases hr : rootMapLookup d.roots
      (((jsSplit fp '/').map jsTrim).head?.getD "") with
  | none =>
    rw [findBookmarkFolder_root_none d fp hr]
    exact ⟨"Root folder not found: " ++
      (((jsSplit fp '/').map jsTrim).head?.getD ""), by simp⟩
  | some root =>
    rw [findBookmarkFolder_root_some d fp root hr] at h ⊢
    exact navigateBookmarkPath_none_has_error _ root _ _ h

/-- C8: `getBookmarksFromFolder` composes loading, folder resolution and
URL extraction; it is a total function into bookmark sequences (never an
error), and whenever a step fails — missing file, malformed JSON, or
unresolvable folder — it returns the empty sequence, with the underlying
error reported in the emitted lines; when every step succeeds, it returns
the extraction of the resolved folder. -/
theorem getBookmarksFromFolder_total_safe :
    (∀ (fs : FileSystem) (p fp : String), fs p = .missing →
      (getBookmarksFromFolder fs p fp).1 = [] ∧
      (getBookmarksFromFolder fs p fp).2.head?
        = some (.error ("Bookmarks file not found: " ++ p))) ∧
    (∀ (fs : FileSystem) (p fp msg : String), fs p = .malformed msg →
      (getBookmarksFromFolder fs p fp).1 = [] ∧
      (getBookmarksFromFolder fs p fp).2.head?
        = some (.error ("Failed to parse bookmarks file: " ++ msg))) ∧
    (∀ (fs : FileSystem) (p fp : String) (doc : BookmarksDoc),
      fs p = .parsed doc → (findBookmarkFolder doc fp).1 = none →
      (getBookmarksFromFolder fs p fp).1 = [] ∧
      ∃ m, Event.error m ∈ (getBookmarksFromFolder fs p fp).2) ∧
    (∀ (fs : FileSystem) (p fp : String) (doc : BookmarksDoc) (folder : JNode)
        (evs : List Event),
      fs p = .parsed doc → findBookmarkFolder doc fp = (some folder, evs) →
      getBookmarksFromFolder fs p fp
        = (extractUrlsFromFolder folder true, evs)) := by
  refine ⟨?_, ?_, ?_, ?_⟩
  · intro fs p fp h
    constructor <;> simp [getBookmarksFromFolder, loadBookmarksFile, h]
  · intro fs p fp msg h
    constructor <;> simp [getBookmarksFromFolder, loadBookmarksFile, h]
  · intro fs p fp doc hfs hnone
    have herr := findBookmarkFolder_none_has_error doc fp hnone
    rcases hfb : findBookmarkFolder doc fp with ⟨o, evs⟩
    rw [hfb] at hnone herr
    simp only [Prod.fst] at hnone
    subst hnone
    have h1 : (getBookmarksFromFolder fs p fp).1 = [] := by
      simp [getBookmarksFromFolder, loadBookmarksFile, hfs, hfb]
    have h2 : (getBookmarksFromFolder fs p fp).2 = evs := by
      simp [getBookmarksFromFolder, loadBookmarksFile, hfs, hfb]
    exact ⟨h1, by rw [h2]; simpa using herr⟩
  · intro fs p fp doc folder evs hfs hfb
    simp [getBookmarksFromFolder, loadBookmarksFile, hfs, hfb]

/-- C8 witness: The composition theorem applied at a missing file and
at a fully successful resolution of `Other bookmarks/Reading` in the sample
document. -/
theorem getBookmarksFromFolder_total_safe_witness :
    ((fun _ => LoadResult.missing : FileSystem) "bm" = .missing ∧
      (getBookmarksFromFolder (fun _ => LoadResult.missing) "bm" "other").1 = []) ∧
    ((fun _ => LoadResult.parsed sampleDoc : FileSystem) "bm" = .parsed sampleDoc ∧
      getBookmarksFromFolder (fun _ => LoadResult.parsed sampleDoc) "bm"
          "Other bookmarks/Reading"
        = (extractUrlsFromFolder readingFolder true, [])) :=
  ⟨⟨rfl, (getBookmarksFromFolder_total_safe.1
      (fun _ => LoadResult.missing) "bm" "other" rfl).1⟩,
   ⟨rfl, getBookmarksFromFolder_total_safe.2.2.2
      (fun _ => LoadResult.parsed sampleDoc) "bm" "Other bookmarks/Reading"
      sampleDoc readingFolder [] rfl rfl⟩⟩

/-! ### C1: per-command failure isolation in the command loop -/

theorem launchCommandStep_spawns (isVerbose : Bool) (exec : ExecOracle)
    (c : String) : bashSpawns (launchCommandStep isVerbose exec c) = [c] := by
  unfold launchCommandStep
  cases h : exec c with
  | exits code => simp [bashSpawns]
  | throws e =>
    simp only [bashSpawns, List.filterMap_cons, List.filterMap_append]
    split_ifs <;> simp

theorem launchCommandStep_errorCount (isVerbose : Bool) (exec : ExecOracle)
    (c : String) :
    errorLineCount (launchCommandStep isVerbose exec c)
      = if cmdThrows exec c then 1 else 0 := by
  unfold launchCommandStep cmdThrows
  cases h : exec c with
  | exits code => simp [errorLineCount]
  | throws e =>
    simp only [errorLineCount, List.countP_cons, List.countP_append]
    split_ifs <;> simp_all [List.countP_cons, List.countP_nil]

theorem launchCommandStep_statusCount (isVerbose : Bool) (exec : ExecOracle)
    (c : String) :
    statusLineCount (launchCommandStep isVerbose exec c)
      = if cmdThrows exec c then 0 else 1 := by
  unfold launchCommandStep cmdThrows
  cases h : exec c with
  | exits code => simp [statusLineCount]
  | throws e =>
    simp only [statusLineCount, List.countP_cons, List.countP_append]
    split_ifs <;> simp_all [List.countP_cons, List.countP_nil]

theorem bashSpawns_append (a b : List Event) :
    bashSpawns (a ++ b) = bashSpawns a ++ bashSpawns b := by
  simp [bashSpawns, List.filterMap_append]

theorem errorLineCount_append (a b : List Event) :
    errorLineCount (a ++ b) = errorLineCount a + errorLineCount b := by
  simp [errorLineCount, List.countP_append]

theorem statusLineCount_append (a b : List Event) :
    statusLineCount (a ++ b) = statusLineCount a + statusLineCount b := by
  simp [statusLineCount, List.countP_append]

theorem launchCommandsPhase_cons_skip (isDryRun isVerbose : Bool)
    (exec : ExecOracle) (cmd : String) (rest : List String)
    (hp : commandPlan cmd = none) :
    launchCommandsPhase isDryRun isVerbose exec (cmd :: rest)
      = launchCommandsPhase isDryRun isVerbose exec rest := by
  simp [launchCommandsPhase, hp]

theorem launchCommandsPhase_cons_live (isVerbose : Bool) (exec : ExecOracle)
    (cmd : String) (rest : List String) (clean : String)
    (hp : commandPlan cmd = some clean) :
    launchCommandsPhase false isVerbose exec (cmd :: rest)
      = launchCommandStep isVerbose exec clean
        ++ launchCommandsPhase false isVerbose exec rest := by
  simp [launchCommandsPhase, hp]

theorem launchCommandsPhase_cons_dry (isVerbose : Bool) (exec : ExecOracle)
    (cmd : String) (rest : List String) (clean : String)
    (hp : commandPlan cmd = some clean) :
    launchCommandsPhase true isVerbose exec (cmd :: rest)
      = [.dryRun ("Would execute: " ++ clean),
         .status ("Planned: " ++ displayName50 clean)]
        ++ launchCommandsPhase true isVerbose exec rest := by
  simp [launchCommandsPhase, hp]

theorem activeCommands_cons_skip (cmd : String) (rest : List String)
    (hp : commandPlan cmd = none) :
    activeCommands (cmd :: rest) = activeCommands rest := by
  simp [activeCommands, List.filterMap_cons, hp]

theorem activeCommands_cons_live (cmd : String) (rest : List String)
    (clean : String) (hp : commandPlan cmd = some clean) :
    activeCommands (cmd :: rest) = clean :: activeCommands rest := by
  simp [activeCommands, List.filterMap_cons, hp]

theorem launchCommandsPhase_live_spawns (isVerbose : Bool)
    (exec : ExecOracle) :
    ∀ cmds, bashSpawns (launchCommandsPhase false isVerbose exec cmds)
      = activeCommands cmds := by
  intro cmds
  induction cmds with
  | nil => rfl
  | cons cmd rest ih =>
    cases hp : commandPlan cmd with
    | none =>
      rw [launchCommandsPhase_cons_skip _ _ _ _ _ hp,
        activeCommands_cons_skip _ _ hp]
      exact ih
    | some clean =>
      rw [launchCommandsPhase_cons_live _ _ _ _ _ hp,
        activeCommands_cons_live _ _ _ hp, bashSpawns_append,
        launchCommandStep_spawns, ih]
      rfl

theorem launchCommandsPhase_live_errorCount (isVerbose : Bool)
    (exec : ExecOracle) :
    ∀ cmds, errorLineCount (launchCommandsPhase false isVerbose exec cmds)
      = (activeCommands cmds).countP (cmdThrows exec) := by
  intro cmds
  induction cmds with
  | nil => rfl
  | cons cmd rest ih =>
    cases hp : commandPlan cmd with
    | none =>
      rw [launchCommandsPhase_cons_skip _ _ _ _ _ hp,
        activeCommands_cons_skip _ _ hp]
      exact ih
    | some clean =>
      rw [launchCommandsPhase_cons_live _ _ _ _ _ hp,
        activeCommands_cons_live _ _ _ hp, errorLineCount_append,
        launchCommandStep_errorCount, ih, List.countP_cons]
      cases hf : cmdThrows exec clean <;> simp [hf, Nat.add_comm]

theorem launchCommandsPhase_live_statusCount (isVerbose : Bool)
    (exec : ExecOracle) :
    ∀ cmds, statusLineCount (launchCommandsPhase false isVerbose exec cmds)
      = (activeCommands cmds).countP (fun c => ! cmdThrows exec c) := by
  intro cmds
  induction cmds with
  | nil => rfl
  | cons cmd rest ih =>
    cases hp : commandPlan cmd with
    | none =>
      rw [launchCommandsPhase_cons_skip _ _ _ _ _ hp,
        activeCommands_cons_skip _ _ hp]
      exact ih
    | some clean =>
      rw [launchCommandsPhase_cons_live _ _ _ _ _ hp,
        activeCommands_cons_live _ _ _ hp, statusLineCount_append,
        launchCommandStep_statusCount, ih, List.countP_cons]
      cases hf : cmdThrows exec clean <;> simp [hf, Nat.add_comm]

theorem launchCommandsPhase_live_mem_failure (isVerbose : Bool)
    (exec : ExecOracle) :
    ∀ (cmds : List String) (c e : String), c ∈ activeCommands cmds →
      exec c = .throws e →
      Event.error ("Failed to launch: " ++ c)
          ∈ launchCommandsPhase false isVerbose exec cmds ∧
        (strIncludes e "command not found" = true →
          Event.info "Tip: Ensure the application is installed"
            ∈ launchCommandsPhase false isVerbose exec cmds) := by
  intro cmds
  induction cmds with
  | nil => intro c e hmem; simp [activeCommands] at hmem
  | cons cmd rest ih =>
    intro c e hmem hfail
    cases hp : commandPlan cmd with
    | none =>
      rw [activeCommands_cons_skip _ _ hp] at hmem
      rw [launchCommandsPhase_cons_skip _ _ _ _ _ hp]
      exact ih c e hmem hfail
    | some clean =>
      rw [activeCommands_cons_live _ _ _ hp] at hmem
      rw [launchCommandsPhase_cons_live _ _ _ _ _ hp]
      rcases List.mem_cons.mp hmem with hc | hc
      · subst hc
        constructor
        · exact List.mem_append_left _ (by simp [launchCommandStep, hfail])
        · intro hinc
          exact List.mem_append_left _
            (by simp [launchCommandStep, hfail, hinc])
      · obtain ⟨h1, h2⟩ := ih c e hc hfail
        exact ⟨List.mem_append_right _ h1,
          fun hinc => List.mem_append_right _ (h2 hinc)⟩

theorem launchCommandsPhase_live_mem_status (isVerbose : Bool)
    (exec : ExecOracle) :
    ∀ (cmds : List String) (c : String) (code : Nat),
      c ∈ activeCommands cmds → exec c = .exits code →
      Event.status ("Launched: " ++ displayName50 c)
        ∈ launchCommandsPhase false isVerbose exec cmds := by
  intro cmds
  induction cmds with
  | nil => intro c code hmem; simp [activeCommands] at hmem
  | cons cmd rest ih =>
    intro c code hmem hres
    cases hp : commandPlan cmd with
    | none =>
      rw [activeCommands_cons_skip _ _ hp] at hmem
      rw [launchCommandsPhase_cons_skip _ _ _ _ _ hp]
      exact ih c code hmem hres
    | some clean =>
      rw [activeCommands_cons_live _ _ _ hp] at hmem
      rw [launchCommandsPhase_cons_live _ _ _ _ _ hp]
      rcases List.mem_cons.mp hmem with hc | hc
      · subst hc
        exact List.mem_append_left _ (by simp [launchCommandStep, hres])
      · exact List.mem_append_right _ (ih c code hc hres)

/-- C1 counterexample: the claim as stated is false of the code for the
non-zero-exit failure mode. The source calls `.nothrow()` on every shell
invocation (part_000 lines 112-117) and never inspects the exit code, so a
command exiting non-zero resolves and gets the `Launched` success line:
with the middle command exiting 1, the batch prints three success lines,
zero failure lines, and no `Failed to launch` line for the failing
command. -/
theorem launchCommands_nonzero_exit_counterexample :
    launchCommandsPhase false false
        (fun s => if s = "exit 1" then ExecOutcome.exits 1
          else ExecOutcome.exits 0)
        ["ls -la", "exit 1", "echo hi"]
      = [.spawnBash "ls -la", .status "Launched: ls -la",
         .spawnBash "exit 1", .status "Launched: exit 1",
         .spawnBash "echo hi", .status "Launched: echo hi"] ∧
    errorLineCount (launchCommandsPhase false false
        (fun s => if s = "exit 1" then ExecOutcome.exits 1
          else ExecOutcome.exits 0)
        ["ls -la", "exit 1", "echo hi"]) = 0 ∧
    Event.error ("Failed to launch: " ++ "exit 1")
      ∉ launchCommandsPhase false false
          (fun s => if s = "exit 1" then ExecOutcome.exits 1
            else ExecOutcome.exits 0)
          ["ls -la", "exit 1", "echo hi"] :=
  ⟨by decide, by decide, by decide⟩

/-- C1 amended: In the live command loop of `launchWorkspace`, a non-zero
exit is NOT reported as a failure — `.nothrow()` makes the awaited shell
resolve and the exit code is never inspected, so every resolving command,
whatever its exit code, gets a `Launched` success line. Only a command
whose awaited shell throws (e.g. a spawn error) is reported with its own
`Failed to launch` error line, with the extra hint when the message looks
like "command not found". The remaining commands are still attempted in
their original order in every case (the spawned `bash -c` commands are
exactly the cleaned active list), and the batch prints exactly one failure
line per throwing command and one success line per resolving command. -/
theorem launchWorkspace_command_failure_isolated (isVerbose : Bool)
    (exec : ExecOracle) (cmds : List String) (c e : String)
    (hmem : c ∈ activeCommands cmds) (hfail : exec c = .throws e) :
    Event.error ("Failed to launch: " ++ c)
        ∈ launchCommandsPhase false isVerbose exec cmds ∧
    bashSpawns (launchCommandsPhase false isVerbose exec cmds)
        = activeCommands cmds ∧
    errorLineCount (launchCommandsPhase false isVerbose exec cmds)
        = (activeCommands cmds).countP (cmdThrows exec) ∧
    statusLineCount (launchCommandsPhase false isVerbose exec cmds)
        = (activeCommands cmds).countP (fun x => ! cmdThrows exec x) ∧
    (∀ (c2 : String) (code : Nat), c2 ∈ activeCommands cmds →
      exec c2 = .exits code →
      Event.status ("Launched: " ++ displayName50 c2)
        ∈ launchCommandsPhase false isVerbose exec cmds) ∧
    (strIncludes e "command not found" = true →
      Event.info "Tip: Ensure the application is installed"
        ∈ launchCommandsPhase false isVerbose exec cmds) := by
  obtain ⟨h1, h2⟩ :=
    launchCommandsPhase_live_mem_failure isVerbose exec cmds c e hmem hfail
  exact ⟨h1, launchCommandsPhase_live_spawns isVerbose exec cmds,
    launchCommandsPhase_live_errorCount isVerbose exec cmds,
    launchCommandsPhase_live_statusCount isVerbose exec cmds,
    fun c2 code hm hr =>
      launchCommandsPhase_live_mem_status isVerbose exec cmds c2 code hm hr,
    h2⟩

/-- C1 witness: Four commands where the second exits 1 and the third
throws with a "command not found" message: the throwing command gets its
failure line and hint, the non-zero-exit command still gets a `Launched`
line, all four are spawned in order, and the counts are one failure line
and three success lines. -/
theorem launchWorkspace_command_failure_isolated_witness :
    Event.error ("Failed to launch: " ++ "brokenapp")
        ∈ launchCommandsPhase false false
            (fun s => if s = "brokenapp"
              then ExecOutcome.throws "bash: brokenapp: command not found"
              else if s = "exit 1" then ExecOutcome.exits 1
              else ExecOutcome.exits 0)
            ["ls -la", "exit 1", "brokenapp", "echo hi"] ∧
      bashSpawns (launchCommandsPhase false false
            (fun s => if s = "brokenapp"
              then ExecOutcome.throws "bash: brokenapp: command not found"
              else if s = "exit 1" then ExecOutcome.exits 1
              else ExecOutcome.exits 0)
            ["ls -la", "exit 1", "brokenapp", "echo hi"])
        = activeCommands ["ls -la", "exit 1", "brokenapp", "echo hi"] ∧
      errorLineCount (launchCommandsPhase false false
            (fun s => if s = "brokenapp"
              then ExecOutcome.throws "bash: brokenapp: command not found"
              else if s = "exit 1" then ExecOutcome.exits 1
              else ExecOutcome.exits 0)
            ["ls -la", "exit 1", "brokenapp", "echo hi"]) = 1 ∧
      statusLineCount (launchCommandsPhase false false
            (fun s => if s = "brokenapp"
              then ExecOutcome.throws "bash: brokenapp: command not found"
              else if s = "exit 1" then ExecOutcome.exits 1
              else ExecOutcome.exits 0)
            ["ls -la", "exit 1", "brokenapp", "echo hi"]) = 3 ∧
      Event.status ("Launched: " ++ displayName50 "exit 1")
        ∈ launchCommandsPhase false false
            (fun s => if s = "brokenapp"
              then ExecOutcome.throws "bash: brokenapp: command not found"
              else if s = "exit 1" then ExecOutcome.exits 1
              else ExecOutcome.exits 0)
            ["ls -la", "exit 1", "brokenapp", "echo hi"] ∧
      Event.info "Tip: Ensure the application is installed"
        ∈ launchCommandsPhase false false
            (fun s => if s = "brokenapp"
              then ExecOutcome.throws "bash: brokenapp: command not found"
              else if s = "exit 1" then ExecOutcome.exits 1
              else ExecOutcome.exits 0)
            ["ls -la", "exit 1", "brokenapp", "echo hi"] := by
  obtain ⟨h1, h2, h3, h4, h5, h6⟩ :=
    launchWorkspace_command_failure_isolated false
      (fun s => if s = "brokenapp"
        then ExecOutcome.throws "bash: brokenapp: command not found"
        else if s = "exit 1" then ExecOutcome.exits 1
        else ExecOutcome.exits 0)
      ["ls -la", "exit 1", "brokenapp", "echo hi"] "brokenapp"
      "bash: brokenapp: command not found" (by decide) rfl
  refine ⟨h1, h2, ?_, ?_, h5 "exit 1" 1 (by decide) rfl, h6 (by decide)⟩
  · rw [h3]; decide
  · rw [h4]; decide

/-! ### C3: xdg-open branching of the bookmarks phase -/

theorem xdgOpenLoop_all_ok (isVerbose : Bool) (execArgv : ArgvOracle)
    (commandParts : List String) (total : Nat)
    (hok : ∀ a, execArgv a = .ok ()) :
    ∀ (bms : List Bookmark) (i : Nat),
    xdgOpenLoop isVerbose execArgv commandParts total bms i
      = (List.enumFrom i bms).flatMap fun p =>
          [Event.spawnArgv (commandParts ++ [p.2.url]),
           .progress (p.1 + 1) total ("Opened: " ++ displayName40 p.2.name)] := by
  intro bms
  induction bms with
  | nil => intro i; simp [xdgOpenLoop]
  | cons b rest ih =>
    intro i
    simp [xdgOpenLoop, hok, List.enumFrom_cons, List.flatMap_cons, ih]

theorem spawnEvents_xdg_pairs (commandParts : List String) (total : Nat) :
    ∀ l : List (Nat × Bookmark),
    spawnEvents (l.flatMap fun p =>
        [Event.spawnArgv (commandParts ++ [p.2.url]),
         .progress (p.1 + 1) total ("Opened: " ++ displayName40 p.2.name)])
      = l.map fun p => Event.spawnArgv (commandParts ++ [p.2.url]) := by
  intro l
  induction l with
  | nil => rfl
  | cons p rest ih =>
    simp only [List.flatMap_cons, spawnEvents, List.filter_append,
      List.filter_cons] at ih ⊢
    simp [Event.isSpawn, ih]

theorem spawnEvents_progress_map (total : Nat) (f : Nat × Bookmark → String) :
    ∀ l : List (Nat × Bookmark),
    spawnEvents (l.map fun p => Event.progress (p.1 + 1) total (f p)) = [] := by
  intro l
  rw [spawnEvents, List.filter_eq_nil_iff]
  intro a ha
  obtain ⟨p, _, rfl⟩ := List.mem_map.mp ha
  simp [Event.isSpawn]

/-- C3: In the bookmarks phase, the open command defaults to `xdg-open`
when `bookmarks_open_in` is unset, and the branch is decided by whether the
first token of the tokenized open command ends in `xdg-open`: if so, each of
the `N` resolved bookmarks gets its own sequential invocation carrying
exactly one URL argument, paired with its `[i/N]` progress line; otherwise a
single invocation is spawned with all `N` URLs appended as separate
arguments and the per-bookmark progress lines follow that one spawn. -/
theorem launchBookmarksOpen_xdg_branching :
    (∀ bf : Option String,
      browserCommandOf ⟨some ⟨bf, none⟩⟩ = "xdg-open" ∧
      browserCommandOf ⟨none⟩ = "xdg-open") ∧
    (∀ (isVerbose : Bool) (execArgv : ArgvOracle) (bc : String)
        (bms : List Bookmark) (p0 : String) (ps : List String),
      parseCommandString bc = p0 :: ps →
      strEndsWith p0 "xdg-open" = true →
      (∀ a, execArgv a = .ok ()) →
      launchBookmarksOpen false isVerbose execArgv bc bms
        = bms.enum.flatMap (fun p =>
            [Event.spawnArgv ((p0 :: ps) ++ [p.2.url]),
             .progress (p.1 + 1) bms.length
               ("Opened: " ++ displayName40 p.2.name)]) ∧
      spawnEvents (launchBookmarksOpen false isVerbose execArgv bc bms)
        = bms.map fun b => Event.spawnArgv ((p0 :: ps) ++ [b.url])) ∧
    (∀ (isVerbose : Bool) (execArgv : ArgvOracle) (bc : String)
        (bms : List Bookmark) (p0 : String) (ps : List String),
      parseCommandString bc = p0 :: ps →
      strEndsWith p0 "xdg-open" = false →
      (∀ a, execArgv a = .ok ()) →
      launchBookmarksOpen false isVerbose execArgv bc bms
        = Event.spawnArgv ((p0 :: ps) ++ bms.map (·.url)) ::
            bms.enum.map (fun p =>
              Event.progress (p.1 + 1) bms.length
                ("Opened: " ++ displayName40 p.2.name)) ∧
      spawnEvents (launchBookmarksOpen false isVerbose execArgv bc bms)
        = [Event.spawnArgv ((p0 :: ps) ++ bms.map (·.url))]) := by
  refine ⟨fun bf => ⟨rfl, rfl⟩, ?_, ?_⟩
  · intro isVerbose execArgv bc bms p0 ps hparse hx hok
    have htrace :
        launchBookmarksOpen false isVerbose execArgv bc bms
          = bms.enum.flatMap fun p =>
              [Event.spawnArgv ((p0 :: ps) ++ [p.2.url]),
               .progress (p.1 + 1) bms.length
                 ("Opened: " ++ displayName40 p.2.name)] := by
      simp only [launchBookmarksOpen, hparse, hx, Bool.false_eq_true,
        if_false, if_true]
      rw [xdgOpenLoop_all_ok isVerbose execArgv (p0 :: ps) bms.length hok
        bms 0]
      rfl
    refine ⟨htrace, ?_⟩
    rw [htrace, spawnEvents_xdg_pairs (p0 :: ps) bms.length bms.enum,
      show (fun p : Nat × Bookmark =>
          Event.spawnArgv ((p0 :: ps) ++ [p.2.url]))
        = (fun b : Bookmark => Event.spawnArgv ((p0 :: ps) ++ [b.url]))
            ∘ Prod.snd from rfl,
      ← List.map_map, List.enum_map_snd]
  · intro isVerbose execArgv bc bms p0 ps hparse hx hok
    have htrace :
        launchBookmarksOpen false isVerbose execArgv bc bms
          = Event.spawnArgv ((p0 :: ps) ++ bms.map (·.url)) ::
              bms.enum.map fun p =>
                Event.progress (p.1 + 1) bms.length
                  ("Opened: " ++ displayName40 p.2.name) := by
      simp only [launchBookmarksOpen, hparse, hx, Bool.false_eq_true,
        if_false, if_true, hok]
    refine ⟨htrace, ?_⟩
    rw [htrace]
    simp only [spawnEvents, List.filter_cons, Event.isSpawn]
    rw [show List.filter Event.isSpawn
        (bms.enum.map fun p =>
          Event.progress (p.1 + 1) bms.length
            ("Opened: " ++ displayName40 p.2.name))
      = spawnEvents (bms.enum.map fun p =>
          Event.progress (p.1 + 1) bms.length
            ("Opened: " ++ displayName40 p.2.name)) from rfl]
    rw [spawnEvents_progress_map bms.length _ bms.enum]
    rfl

/-- C3 witness: Two bookmarks: `xdg-open` spawns two one-URL
invocations with their progress lines; `some-browser` spawns a single
invocation carrying both URLs. -/
theorem launchBookmarksOpen_xdg_branching_witness :
    browserCommandOf ⟨some ⟨some "/bm", none⟩⟩ = "xdg-open" ∧
    spawnEvents (launchBookmarksOpen false false (fun _ => .ok ()) "xdg-open"
        [⟨"A", "http://a"⟩, ⟨"B", "http://b"⟩])
      = [⟨"A", "http://a"⟩, ⟨"B", "http://b"⟩].map
          (fun b : Bookmark => Event.spawnArgv (("xdg-open" :: []) ++ [b.url])) ∧
    spawnEvents (launchBookmarksOpen false false (fun _ => .ok ())
        "some-browser" [⟨"A", "http://a"⟩, ⟨"B", "http://b"⟩])
      = [Event.spawnArgv (("some-browser" :: []) ++
          ([⟨"A", "http://a"⟩, ⟨"B", "http://b"⟩].map
            (fun b : Bookmark => b.url)))] :=
  ⟨(launchBookmarksOpen_xdg_branching.1 (some "/bm")).1,
   (launchBookmarksOpen_xdg_branching.2.1 false (fun _ => .ok ()) "xdg-open"
     [⟨"A", "http://a"⟩, ⟨"B", "http://b"⟩] "xdg-open" [] (by decide)
     (by decide) (fun _ => rfl)).2,
   (launchBookmarksOpen_xdg_branching.2.2 false (fun _ => .ok ())
     "some-browser" [⟨"A", "http://a"⟩, ⟨"B", "http://b"⟩] "some-browser" []
     (by decide) (by decide) (fun _ => rfl)).2⟩

/-! ### C2: dry-run purity -/

theorem spawnEvents_append (a b : List Event) :
    spawnEvents (a ++ b) = spawnEvents a ++ spawnEvents b := by
  simp [spawnEvents, List.filter_append]

theorem launchCommandsPhase_dry_no_spawn (isVerbose : Bool)
    (exec : ExecOracle) :
    ∀ cmds, spawnEvents (launchCommandsPhase true isVerbose exec cmds) = [] := by
  intro cmds
  induction cmds with
  | nil => rfl
  | cons cmd rest ih =>
    cases hp : commandPlan cmd with
    | none =>
      rw [launchCommandsPhase_cons_skip _ _ _ _ _ hp]
      exact ih
    | some clean =>
      rw [launchCommandsPhase_cons_dry _ _ _ _ _ hp, spawnEvents_append, ih]
      rfl

theorem loadBookmarksFile_no_spawn (fs : FileSystem) (p : String) :
    spawnEvents (loadBookmarksFile fs p).2 = [] := by
  unfold loadBookmarksFile
  cases fs p <;> rfl

theorem navigateBookmarkPath_no_spawn :
    ∀ (rest : List String) (node : JNode) (prev : String)
      (consumed : List String),
    spawnEvents (navigateBookmarkPath node prev consumed rest).2 = [] := by
  intro rest
  induction rest with
  | nil => intro node prev consumed; rfl
  | cons seg rest ih =>
    intro node prev consumed
    cases hch : node.children with
    | none => rw [navigateBookmarkPath_not_folder node prev consumed seg rest hch]; rfl
    | some cs =>
      cases hfind : cs.find? (fun c => c.name == seg && c.type == "folder") with
      | none =>
        rw [navigateBookmarkPath_not_found node prev consumed seg rest cs hch
          hfind]
        rfl
      | some child =>
        rw [navigateBookmarkPath_step node child prev consumed seg rest cs hch
          hfind]
        exact ih child seg (consumed ++ [seg])

theorem findBookmarkFolder_no_spawn (d : BookmarksDoc) (fp : String) :
    spawnEvents (findBookmarkFolder d fp).2 = [] := by
  cases hr : rootMapLookup d.roots
      (((jsSplit fp '/').map jsTrim).head?.getD "") with
  | none => rw [findBookmarkFolder_root_none d fp hr]; rfl
  | some root =>
    rw [findBookmarkFolder_root_some d fp root hr]
    exact navigateBookmarkPath_no_spawn _ root _ _

theorem getBookmarksFromFolder_no_spawn (fs : FileSystem) (p fp : String) :
    spawnEvents (getBookmarksFromFolder fs p fp).2 = [] := by
  rcases hl : loadBookmarksFile fs p with ⟨od, evs⟩
  have hevs : spawnEvents evs = [] := by
    have := loadBookmarksFile_no_spawn fs p
    rw [hl] at this
    exact this
  cases od with
  | none =>
    have : getBookmarksFromFolder fs p fp = ([], evs) := by
      simp [getBookmarksFromFolder, hl]
    rw [this]
    exact hevs
  | some doc =>
    rcases hfb : findBookmarkFolder doc fp with ⟨o, evs2⟩
    have hevs2 : spawnEvents evs2 = [] := by
      have := findBookmarkFolder_no_spawn doc fp
      rw [hfb] at this
      exact this
    cases o with
    | none =>
      have : getBookmarksFromFolder fs p fp = ([], evs ++ evs2) := by
        simp [getBookmarksFromFolder, hl, hfb]
      rw [this]
      simp [spawnEvents_append, hevs, hevs2]
    | some folder =>
      have : getBookmarksFromFolder fs p fp
          = (extractUrlsFromFolder folder true, evs ++ evs2) := by
        simp [getBookmarksFromFolder, hl, hfb]
      rw [this]
      simp [spawnEvents_append, hevs, hevs2]

theorem launchBookmarksOpen_dry_no_spawn (isVerbose : Bool)
    (execArgv : ArgvOracle) (bc : String) (bms : List Bookmark) :
    spawnEvents (launchBookmarksOpen true isVerbose execArgv bc bms) = [] := by
  cases hp : parseCommandString bc with
  | nil => simp [launchBookmarksOpen, hp, spawnEvents, Event.isSpawn]
  | cons p0 ps =>
    simp only [launchBookmarksOpen, hp, if_true]
    by_cases hx : strEndsWith p0 "xdg-open" = true
    · simp only [hx, if_true]
      exact spawnEvents_progress_map bms.length _ bms.enum
    · simp only [Bool.not_eq_true] at hx
      simp only [hx, Bool.false_eq_true, if_false]
      rw [show spawnEvents
          (Event.dryRun ("Would open " ++ toString bms.length ++
              " bookmarks as tabs") ::
            (bms.enum.map fun p =>
              Event.progress (p.1 + 1) bms.length ("[DRY RUN] " ++ p.2.name)))
        = spawnEvents (bms.enum.map fun p =>
            Event.progress (p.1 + 1) bms.length ("[DRY RUN] " ++ p.2.name))
        from by simp [spawnEvents, List.filter_cons, Event.isSpawn]]
      exact spawnEvents_progress_map bms.length _ bms.enum

/-- C2: With the dry-run flag set, `launchWorkspace` invokes no
process-spawning primitive at all — neither `bash -c` for commands nor any
browser/`xdg-open` invocation for bookmarks — for every workspace,
configuration, filesystem content and oracle: its trace contains no spawn
event. -/
theorem launchWorkspace_dryRun_no_spawn (isVerbose : Bool)
    (exec : ExecOracle) (execArgv : ArgvOracle) (fs : FileSystem)
    (workspace : Workspace) (config : Config) :
    spawnEvents
      (launchWorkspace true isVerbose exec execArgv fs workspace config)
      = [] := by
  unfold launchWorkspace
  rw [spawnEvents_append, spawnEvents_append]
  rw [launchCommandsPhase_dry_no_spawn isVerbose exec]
  simp only [List.append_nil, List.nil_append]
  rw [show spawnEvents [Event.log "",
      .info ("Starting: " ++ workspace.name), .log ""] = [] from rfl]
  simp only [List.nil_append]
  by_cases hb : truthyStr workspace.bookmarks_folder = true
  · simp only [hb, if_true]
    cases hgp : getBookmarksFilePath config with
    | none => rfl
    | some bookmarksPath =>
      rw [spawnEvents_append, getBookmarksFromFolder_no_spawn fs bookmarksPath
        (workspace.bookmarks_folder.getD "")]
      simp only [List.nil_append]
      split_ifs with hlen
      · rw [show spawnEvents (Event.info ("Opening " ++
            toString (getBookmarksFromFolder fs bookmarksPath
              (workspace.bookmarks_folder.getD "")).1.length ++
            " bookmark(s) from: " ++ (workspace.bookmarks_folder.getD "")) ::
              launchBookmarksOpen true isVerbose execArgv
                (browserCommandOf config)
                (getBookmarksFromFolder fs bookmarksPath
                  (workspace.bookmarks_folder.getD "")).1)
          = spawnEvents (launchBookmarksOpen true isVerbose execArgv
              (browserCommandOf config)
              (getBookmarksFromFolder fs bookmarksPath
                (workspace.bookmarks_folder.getD "")).1)
          from by simp [spawnEvents, List.filter_cons, Event.isSpawn]]
        exact launchBookmarksOpen_dry_no_spawn isVerbose execArgv _ _
      · rfl
  · simp only [Bool.not_eq_true] at hb
    simp only [hb, Bool.false_eq_true, if_false]
    rfl

end WorkspaceLauncher
